import Mathlib

/-!
Shallow embedding of `ClientChannelFactory` from
`src/libs/vr/libpdx_uds/client_channel_factory.cpp`.

The OS interactions (socket creation, `WaitForEndpoint`, `connect`,
`SendData`, `ReceiveData`, the steady clock) are modelled by an explicit
environment supplying the outcome of every call in program order; the
embedding is a deterministic function of the inputs and that environment.
Strings are modelled as `List Char`, machine integers as `Int`/`Nat`
(the values involved — errno codes, millisecond durations, the retry
budget — stay far from any overflow boundary).  In addition to the
returned status, the embedding records an instrumentation trace: one
record per executed loop iteration (which connect errno was seen,
whether the 100 ms sleep ran, whether the EACCES budget was charged)
and the lifecycle events of the socket descriptor.  Per C++ RAII
semantics, `LocalHandle socket_fd` closes its descriptor when it goes
out of scope on every return path that has not moved it; the `fdEvents`
trace records those destructor closes and the single move into
`ChannelManager::CreateHandle` on the success path.
-/

namespace Uds

/-- Linux errno values used by the source. -/
def ENOENT : Nat := 2
def EIO : Nat := 5
def EACCES : Nat := 13
def ENOTDIR : Nat := 20
def ETIMEDOUT : Nat := 110
def ECONNREFUSED : Nat := 111

/-- Model of `ClientChannelFactory::GetRootEndpointPath`: the fixed namespace root. -/
def GetRootEndpointPath : List Char := "/dev/socket/pdx".toList

/-- Model of `ClientChannelFactory::GetEndpointPath`: empty stays empty, a path
starting with '/' is used verbatim, anything else is prefixed with the
root and a separator. -/
def GetEndpointPath (endpoint_path : List Char) : List Char :=
  if endpoint_path.isEmpty then []
  else if endpoint_path.head? = some '/' then endpoint_path
  else GetRootEndpointPath ++ '/' :: endpoint_path

/-- The value of `sizeof(sockaddr_un::sun_path)` on Linux. -/
def sun_path_size : Nat := 108

/-- C `strncpy(dst, src, n)` into a buffer of exactly `n` bytes, for a
NUL-free `src` (the bytes of `endpoint_path_.c_str()` before its
terminator): copies at most `n` characters and pads with NUL bytes when
the source is shorter. -/
def strncpyBuf (src : List Char) (n : Nat) : List Char :=
  src.take n ++ List.replicate (n - src.length) '\x00'

/-- The contents of `remote.sun_path` after
`strncpy(remote.sun_path, endpoint_path_.c_str(), sizeof(remote.sun_path))`
followed by `remote.sun_path[sizeof(remote.sun_path) - 1] = '\0'`. -/
def setSunPath (endpoint_path : List Char) : List Char :=
  (strncpyBuf endpoint_path sun_path_size).set (sun_path_size - 1) '\x00'

/-- Environment for one iteration of the connect loop: the outcome of
`WaitForEndpoint` (`none` = success, `some e` = error `e`), the outcome
of `connect` (`none` = success, `some e` = `-1` with `errno = e`, with
EINTR already absorbed by `RETRY_EINTR`), and the value
`steady_clock::now()` would deliver at the end of the iteration. -/
structure IterEnv where
  waitResult : Option Nat
  connectResult : Option Nat
  nextNow : Int
deriving DecidableEq, Repr

/-- Instrumentation record for one executed loop iteration. -/
structure IterAct where
  connectErrno : Option Nat
  slept : Bool
  chargedEaccess : Bool
deriving DecidableEq, Repr

/-- How the connect loop terminated. -/
inductive LoopExit where
  | timedOut
  | waitError (e : Nat)
  | connectFatal (e : Nat)
  | connected
  | envExhausted
deriving DecidableEq, Repr

/-- Result of processing one loop iteration after the deadline check. -/
inductive StepResult where
  | done (ex : LoopExit) (acts : List IterAct)
  | next (now max_eaccess : Int) (act : IterAct)
deriving DecidableEq, Repr

/-- One iteration of the `while (!connected)` body after the deadline
check: `WaitForEndpoint`, then `connect`, then the errno classification
chain `errno == ECONNREFUSED || (errno == EACCES && max_eaccess-- > 0)`
/ `errno != ENOENT && errno != ENOTDIR`, then the conditional refresh of
`now`. -/
def connectStep (use_timeout : Bool) (now max_eaccess : Int)
    (env : IterEnv) : StepResult :=
  match env.waitResult with
  | some e => .done (.waitError e) []
  | none =>
    match env.connectResult with
    | none => .done .connected [⟨none, false, false⟩]
    | some e =>
      if e = ECONNREFUSED then
        .next (if use_timeout then env.nextNow else now) max_eaccess
          ⟨some e, true, false⟩
      else if e = EACCES then
        if max_eaccess > 0 then
          .next (if use_timeout then env.nextNow else now) (max_eaccess - 1)
            ⟨some e, true, true⟩
        else .done (.connectFatal e) [⟨some e, false, false⟩]
      else if e = ENOENT ∨ e = ENOTDIR then
        .next (if use_timeout then env.nextNow else now) max_eaccess
          ⟨some e, false, false⟩
      else .done (.connectFatal e) [⟨some e, false, false⟩]

/-- Model of the `while (!connected)` loop: at the top of every iteration, when
`use_timeout`, the remaining budget `time_end - now` is checked and a
negative value returns `ETIMEDOUT` before the blocking wait; otherwise
the iteration body runs on the next environment entry.  An exhausted
environment means the run is observed only up to that point. -/
def connectLoop (use_timeout : Bool) (time_end : Int) (now max_eaccess : Int)
    (envs : List IterEnv) : LoopExit × List IterAct :=
  if use_timeout ∧ time_end - now < 0 then (.timedOut, [])
  else
    match envs with
    | [] => (.envExhausted, [])
    | env :: rest =>
      match connectStep use_timeout now max_eaccess env with
      | .done ex acts => (ex, acts)
      | .next now' m' act =>
        let r := connectLoop use_timeout time_end now' m' rest
        (r.1, act :: r.2)

/-- Model of `ResponseHeader<LocalHandle>`: the signed return code and the
transferred descriptors (modelled by their numeric values). -/
structure ResponseHeader where
  ret_code : Int
  file_descriptors : List Nat
deriving DecidableEq, Repr

/-- Environment for the handshake after a successful connect. -/
structure HandshakeEnv where
  sendResult : Option Nat
  recvResult : Option Nat
  response : ResponseHeader
deriving DecidableEq, Repr

/-- Environment for a whole `Connect` call. -/
structure ConnectEnv where
  socketResult : Option Nat
  iters : List IterEnv
  handshake : HandshakeEnv
deriving DecidableEq, Repr

/-- Lifecycle events of the `socket_fd` descriptor. -/
inductive FdEvent where
  | opened
  | closed
  | transferred
deriving DecidableEq, Repr

/-- Observable outcome of `Connect`: success with the extracted event
descriptor, `ErrorStatus(e)`, an out-of-bounds `std::vector` access
(undefined behaviour in the source), or an unfinished run (environment
exhausted while still looping). -/
inductive ConnectResult where
  | ok (event_fd : Nat)
  | error (e : Nat)
  | oobIndex (i n : Nat)
  | incomplete
deriving DecidableEq, Repr

/-- A `Connect` run: its result, the per-iteration loop trace, and the
socket descriptor's lifecycle events. -/
structure ConnectRun where
  result : ConnectResult
  loopTrace : List IterAct
  fdEvents : List FdEvent
deriving DecidableEq, Repr

/-- Model of `ClientChannelFactory::Connect(timeout_ms)` started at clock value
`now0`.  On each error return path the `LocalHandle socket_fd`
destructor closes the descriptor; on success it is moved into
`ChannelManager::Get().CreateHandle`. -/
def Connect (timeout_ms : Int) (now0 : Int) (env : ConnectEnv) : ConnectRun :=
  match env.socketResult with
  | some e => ⟨.error e, [], []⟩
  | none =>
    let use_timeout : Bool := decide (timeout_ms ≥ 0)
    let time_end := now0 + timeout_ms
    let r := connectLoop use_timeout time_end now0 5 env.iters
    match r.1 with
    | .timedOut => ⟨.error ETIMEDOUT, r.2, [.opened, .closed]⟩
    | .waitError e => ⟨.error e, r.2, [.opened, .closed]⟩
    | .connectFatal e => ⟨.error e, r.2, [.opened, .closed]⟩
    | .envExhausted => ⟨.incomplete, r.2, [.opened]⟩
    | .connected =>
      match env.handshake.sendResult with
      | some e => ⟨.error e, r.2, [.opened, .closed]⟩
      | none =>
        match env.handshake.recvResult with
        | some e => ⟨.error e, r.2, [.opened, .closed]⟩
        | none =>
          let response := env.handshake.response
          let ref := response.ret_code
          if ref < 0 ∨ response.file_descriptors.length < ref.toNat then
            ⟨.error EIO, r.2, [.opened, .closed]⟩
          else
            match response.file_descriptors.get? ref.toNat with
            | some fd => ⟨.ok fd, r.2, [.opened, .transferred]⟩
            | none =>
              ⟨.oobIndex ref.toNat response.file_descriptors.length, r.2,
                [.opened]⟩

/-- Number of loop iterations that charged the EACCES retry budget. -/
def countCharged (tr : List IterAct) : Nat :=
  (tr.filter fun a => a.chargedEaccess).length

/-- Number of loop iterations whose connect attempt failed with EACCES. -/
def countEacces (tr : List IterAct) : Nat :=
  (tr.filter fun a => a.connectErrno = some EACCES).length


/-- C7: path resolution satisfies exactly: the empty name resolves to the
empty path; a name beginning with the path separator resolves to itself
verbatim; every other non-empty name resolves to the root path, the
separator, and the name — and `GetEndpointPath` is a total function of
the name alone, performing no further validation. -/
theorem C7_resolve_spec (name : List Char) :
    (name = [] → GetEndpointPath name = []) ∧
    (name ≠ [] → name.head? = some '/' → GetEndpointPath name = name) ∧
    (name ≠ [] → name.head? ≠ some '/' →
      GetEndpointPath name = GetRootEndpointPath ++ '/' :: name) := by
  refine ⟨fun h => by simp [GetEndpointPath, h], fun h1 h2 => ?_, fun h1 h2 => ?_⟩ <;>
    simp [GetEndpointPath, List.isEmpty_iff, h1, h2]

/-- Witness for C7 at the concrete inputs of the spec's examples. -/
theorem C7_resolve_spec_witness :
    "foo".toList ≠ [] ∧ ("foo".toList).head? ≠ some '/' ∧
      GetEndpointPath "foo".toList = GetRootEndpointPath ++ '/' :: "foo".toList :=
  ⟨by decide, by decide, (C7_resolve_spec "foo".toList).2.2 (by decide) (by decide)⟩

/-- C10: the resolved endpoint path is empty iff the input name is
empty, and every non-empty resolved path starts with the separator. -/
theorem C10_resolved_absolute (name : List Char) :
    (GetEndpointPath name = [] ↔ name = []) ∧
    (GetEndpointPath name ≠ [] → (GetEndpointPath name).head? = some '/') := by
  have hroot : GetRootEndpointPath = '/' :: "dev/socket/pdx".toList := by decide
  cases name with
  | nil => simp [GetEndpointPath]
  | cons c rest =>
    by_cases hc : c = '/'
    · subst hc
      simp [GetEndpointPath]
    · constructor
      · simp [GetEndpointPath, hroot, hc]
      · intro _
        simp [GetEndpointPath, hroot, hc]

/-- Witness for C10 at a concrete relative name. -/
theorem C10_resolved_absolute_witness :
    GetEndpointPath "foo".toList ≠ [] ∧
      (GetEndpointPath "foo".toList).head? = some '/' :=
  ⟨by decide, (C10_resolved_absolute "foo".toList).2 (by decide)⟩


/-- C9: for every NUL-free endpoint path, including paths longer than
`sizeof(sun_path)`, the bytes written into `remote.sun_path` form a
buffer of exactly `sun_path_size` bytes (no out-of-bounds write), that
buffer contains a NUL terminator, and its contents are the path
truncated to the first `sun_path_size - 1` characters followed by NUL
padding. -/
theorem C9_sun_path_safety (path : List Char) (h : '\x00' ∉ path) :
    (setSunPath path).length = sun_path_size ∧
    '\x00' ∈ setSunPath path ∧
    setSunPath path =
      path.take (sun_path_size - 1) ++
        List.replicate (sun_path_size - min (sun_path_size - 1) path.length)
          '\x00' := by
  have hmain : setSunPath path =
      path.take (sun_path_size - 1) ++
        List.replicate (sun_path_size - min (sun_path_size - 1) path.length)
          '\x00' := by
    unfold setSunPath strncpyBuf sun_path_size
    norm_num
    rcases le_or_lt path.length 107 with hlen | hlen
    · have htake8 : path.take 108 = path := List.take_of_length_le (by omega)
      have htake7 : path.take 107 = path := List.take_of_length_le hlen
      have hmin : min 107 path.length = path.length := by omega
      rw [htake8, htake7, hmin,
        List.set_append_right _ _ (by omega), List.set_replicate_self]
    · have hrep0 : 108 - path.length = 0 := by omega
      have hmin : min 107 path.length = 107 := by omega
      rw [hrep0, hmin, List.replicate_zero, List.append_nil]
      have h107 : 107 < (path.take 108).length := by
        rw [List.length_take]; omega
      rw [List.set_eq_take_cons_drop _ h107, List.take_take,
        List.drop_eq_nil_of_le (by rw [List.length_take]; omega)]
      norm_num
  refine ⟨?_, ?_, hmain⟩
  · rw [hmain, List.length_append, List.length_take, List.length_replicate]
    unfold sun_path_size
    omega
  · rw [hmain]
    refine List.mem_append_right _ (List.mem_replicate.mpr ⟨?_, rfl⟩)
    unfold sun_path_size
    omega

/-- Witness for C9 at a concrete 200-character path, longer than the
108-byte address buffer. -/
theorem C9_sun_path_safety_witness :
    '\x00' ∉ List.replicate 200 'a' ∧
      (setSunPath (List.replicate 200 'a')).length = sun_path_size ∧
      '\x00' ∈ setSunPath (List.replicate 200 'a') ∧
      setSunPath (List.replicate 200 'a') =
        (List.replicate 200 'a').take (sun_path_size - 1) ++
          List.replicate
            (sun_path_size - min (sun_path_size - 1)
              (List.replicate 200 'a').length) '\x00' :=
  ⟨by decide, C9_sun_path_safety (List.replicate 200 'a') (by decide)⟩


/-- Helper: a `.done` step exit is a wait error, a successful
connection, or a fatal connect error — never a deadline timeout. -/
theorem connectStep_done_cases {u : Bool} {now m : Int} {env : IterEnv}
    {ex : LoopExit} {acts : List IterAct}
    (h : connectStep u now m env = .done ex acts) :
    (∃ e, ex = .waitError e) ∨ ex = .connected ∨ ∃ e, ex = .connectFatal e := by
  unfold connectStep at h
  rcases env with ⟨wr, cr, nn⟩
  cases wr with
  | some e =>
    cases h
    exact Or.inl ⟨e, rfl⟩
  | none =>
    cases cr with
    | none =>
      cases h
      exact Or.inr (Or.inl rfl)
    | some e =>
      simp only at h
      split_ifs at h <;> cases h <;>
        exact Or.inr (Or.inr ⟨e, rfl⟩)

/-- Helper: with `use_timeout = false` the loop never exits through the
deadline-timeout path. -/
theorem connectLoop_unbounded_no_timeout (envs : List IterEnv) :
    ∀ (time_end now m : Int),
    (connectLoop false time_end now m envs).1 ≠ LoopExit.timedOut := by
  induction envs with
  | nil =>
    intro tE now m
    simp [connectLoop]
  | cons env rest ih =>
    intro tE now m
    rw [connectLoop.eq_def]
    simp only [Bool.false_eq_true, false_and, if_false]
    cases hstep : connectStep false now m env with
    | done ex acts =>
      simp only
      rcases connectStep_done_cases hstep with ⟨e, rfl⟩ | rfl | ⟨e, rfl⟩ <;> simp
    | next now' m' act =>
      simp only
      exact ih tE now' m'

/-- C3: with a negative timeout the connect loop can never exit through
the deadline-timeout path; with a non-negative timeout the remaining
budget `time_end - now` is checked at the top of every loop iteration,
and a negative value terminates the loop as `timedOut` immediately —
before the endpoint wait, so with no further iteration activity — which
`Connect` surfaces as `ErrorStatus(ETIMEDOUT)`. -/
theorem C3_timeout_policy :
    (∀ (timeout_ms : Int), timeout_ms < 0 →
      ∀ (time_end now m : Int) (envs : List IterEnv),
      (connectLoop (decide (timeout_ms ≥ 0)) time_end now m envs).1 ≠
        LoopExit.timedOut) ∧
    (∀ (u : Bool) (time_end now m : Int) (envs : List IterEnv),
      u = true → time_end - now < 0 →
      connectLoop u time_end now m envs = (.timedOut, [])) ∧
    (∀ (timeout_ms now0 : Int) (env : ConnectEnv), 0 ≤ timeout_ms →
      env.socketResult = none →
      (connectLoop (decide (timeout_ms ≥ 0)) (now0 + timeout_ms) now0 5
          env.iters).1 = .timedOut →
      (Connect timeout_ms now0 env).result = .error ETIMEDOUT) := by
  refine ⟨?_, ?_, ?_⟩
  · intro tm htm tE now m envs
    have hdec : decide (tm ≥ 0) = false := by simp; omega
    rw [hdec]
    exact connectLoop_unbounded_no_timeout envs tE now m
  · intro u tE now m envs hu hneg
    subst hu
    rw [connectLoop.eq_def, if_pos ⟨rfl, hneg⟩]
  · intro tm now0 env htm hsock hloop
    unfold Connect
    rw [hsock]
    simp only
    rw [hloop]

/-- Witness for C3: a call with `timeout_ms = 0` whose first connect is
refused exhausts the budget and returns `ETIMEDOUT`; the loop-level
parts are instantiated at the same concrete state. -/
theorem C3_timeout_policy_witness :
    ((-1 : Int) < 0 ∧
      (connectLoop (decide ((-1 : Int) ≥ 0)) 0 0 5
          [⟨none, some ECONNREFUSED, 1⟩]).1 ≠ LoopExit.timedOut) ∧
    (connectLoop true 0 (1 : Int) 5 [] = (.timedOut, [])) ∧
    ((0 : Int) ≤ 0 ∧
      (⟨none, [⟨none, some ECONNREFUSED, 1⟩], ⟨none, none, ⟨0, [42]⟩⟩⟩ :
          ConnectEnv).socketResult = none ∧
      (connectLoop (decide ((0 : Int) ≥ 0)) ((0 : Int) + 0) 0 5
          [⟨none, some ECONNREFUSED, 1⟩]).1 = .timedOut ∧
      (Connect 0 0
          ⟨none, [⟨none, some ECONNREFUSED, 1⟩], ⟨none, none, ⟨0, [42]⟩⟩⟩).result =
        .error ETIMEDOUT) :=
  ⟨⟨by decide,
      C3_timeout_policy.1 (-1) (by decide) 0 0 5 [⟨none, some ECONNREFUSED, 1⟩]⟩,
    C3_timeout_policy.2.1 true 0 1 5 [] rfl (by decide),
    by decide, rfl, by decide,
    C3_timeout_policy.2.2 0 0
      ⟨none, [⟨none, some ECONNREFUSED, 1⟩], ⟨none, none, ⟨0, [42]⟩⟩⟩
      (by decide) rfl (by decide)⟩


/-- Helper: unfolding the loop when the iteration terminates it. -/
theorem connectLoop_cons_done {u : Bool} {tE now m : Int} {env : IterEnv}
    {ex : LoopExit} {acts : List IterAct} {rest : List IterEnv}
    (hguard : ¬(u = true ∧ tE - now < 0))
    (hstep : connectStep u now m env = .done ex acts) :
    connectLoop u tE now m (env :: rest) = (ex, acts) := by
  rw [connectLoop.eq_def, if_neg hguard]
  simp only [hstep]

/-- Helper: unfolding the loop when the iteration continues it. -/
theorem connectLoop_cons_next {u : Bool} {tE now m now' m' : Int}
    {env : IterEnv} {act : IterAct} {rest : List IterEnv}
    (hguard : ¬(u = true ∧ tE - now < 0))
    (hstep : connectStep u now m env = .next now' m' act) :
    connectLoop u tE now m (env :: rest) =
      ((connectLoop u tE now' m' rest).1,
        act :: (connectLoop u tE now' m' rest).2) := by
  rw [connectLoop.eq_def, if_neg hguard]
  simp only [hstep]

/-- Helper: exhaustive description of one loop-iteration body by errno
class, mirroring the source's classification chain. -/
theorem connectStep_shape (u : Bool) (now m : Int) (env : IterEnv) :
    (∃ e, env.waitResult = some e ∧
      connectStep u now m env = .done (.waitError e) []) ∨
    (env.waitResult = none ∧ env.connectResult = none ∧
      connectStep u now m env = .done .connected [⟨none, false, false⟩]) ∨
    (env.waitResult = none ∧ env.connectResult = some ECONNREFUSED ∧
      connectStep u now m env =
        .next (if u then env.nextNow else now) m
          ⟨some ECONNREFUSED, true, false⟩) ∨
    (env.waitResult = none ∧ env.connectResult = some EACCES ∧ m > 0 ∧
      connectStep u now m env =
        .next (if u then env.nextNow else now) (m - 1)
          ⟨some EACCES, true, true⟩) ∨
    (env.waitResult = none ∧ env.connectResult = some EACCES ∧ m ≤ 0 ∧
      connectStep u now m env =
        .done (.connectFatal EACCES) [⟨some EACCES, false, false⟩]) ∨
    (∃ e, env.waitResult = none ∧ env.connectResult = some e ∧
      (e = ENOENT ∨ e = ENOTDIR) ∧
      connectStep u now m env =
        .next (if u then env.nextNow else now) m ⟨some e, false, false⟩) ∨
    (∃ e, env.waitResult = none ∧ env.connectResult = some e ∧
      e ≠ ECONNREFUSED ∧ e ≠ EACCES ∧ e ≠ ENOENT ∧ e ≠ ENOTDIR ∧
      connectStep u now m env =
        .done (.connectFatal e) [⟨some e, false, false⟩]) := by
  rcases env with ⟨wr, cr, nn⟩
  cases wr with
  | some e => exact Or.inl ⟨e, rfl, rfl⟩
  | none =>
    cases cr with
    | none => exact Or.inr (Or.inl ⟨rfl, rfl, rfl⟩)
    | some e =>
      by_cases h1 : e = ECONNREFUSED
      · subst h1
        exact Or.inr (Or.inr (Or.inl ⟨rfl, rfl, by simp [connectStep]⟩))
      by_cases h2 : e = EACCES
      · subst h2
        rcases lt_or_le 0 m with hm | hm
        · refine Or.inr (Or.inr (Or.inr (Or.inl ⟨rfl, rfl, hm, ?_⟩)))
          simp [connectStep, h1, hm]
        · refine Or.inr (Or.inr (Or.inr (Or.inr (Or.inl ⟨rfl, rfl, hm, ?_⟩))))
          simp [connectStep, h1]
          omega
      by_cases h3 : e = ENOENT ∨ e = ENOTDIR
      · refine Or.inr (Or.inr (Or.inr (Or.inr (Or.inr (Or.inl
          ⟨e, rfl, rfl, h3, ?_⟩)))))
        simp [connectStep, h1, h2, h3]
      · refine Or.inr (Or.inr (Or.inr (Or.inr (Or.inr (Or.inr
          ⟨e, rfl, rfl, h1, h2, ?_, ?_, ?_⟩)))))
        · intro h; exact h3 (Or.inl h)
        · intro h; exact h3 (Or.inr h)
        · simp [connectStep, h1, h2, h3]

/-- Helper: `countCharged` on an empty trace. -/
theorem countCharged_nil : countCharged [] = 0 := rfl

/-- Helper: `countEacces` on an empty trace. -/
theorem countEacces_nil : countEacces [] = 0 := rfl

/-- Helper: `countCharged` on a trace extension. -/
theorem countCharged_cons (a : IterAct) (tr : List IterAct) :
    countCharged (a :: tr) =
      (if a.chargedEaccess then 1 else 0) + countCharged tr := by
  by_cases h : a.chargedEaccess <;>
    simp [countCharged, List.filter_cons, h, Nat.add_comm]

/-- Helper: `countEacces` on a trace extension. -/
theorem countEacces_cons (a : IterAct) (tr : List IterAct) :
    countEacces (a :: tr) =
      (if a.connectErrno = some EACCES then 1 else 0) + countEacces tr := by
  by_cases h : a.connectErrno = some EACCES <;>
    simp [countEacces, List.filter_cons, h, Nat.add_comm]


/-- Helper: the EACCES budget invariant of the connect loop, for an
arbitrary starting budget `m`: at most `m.toNat` retries charge the
budget, at most `m.toNat + 1` iterations see EACCES at all, and a run
in which `m.toNat + 1` iterations saw EACCES ended in an immediate
`connectFatal EACCES` whose final iteration did not sleep. -/
theorem connectLoop_eacces_budget (envs : List IterEnv) :
    ∀ (u : Bool) (tE now m : Int),
    countCharged (connectLoop u tE now m envs).2 ≤ m.toNat ∧
    countEacces (connectLoop u tE now m envs).2 ≤ m.toNat + 1 ∧
    (countEacces (connectLoop u tE now m envs).2 = m.toNat + 1 →
      (connectLoop u tE now m envs).1 = .connectFatal EACCES ∧
      ∃ tr', (connectLoop u tE now m envs).2 =
        tr' ++ [⟨some EACCES, false, false⟩]) := by
  induction envs with
  | nil =>
    intro u tE now m
    rw [connectLoop.eq_def]
    split <;> simp [countCharged, countEacces]
  | cons env rest ih =>
    intro u tE now m
    by_cases hguard : u = true ∧ tE - now < 0
    · rw [connectLoop.eq_def, if_pos hguard]
      simp [countCharged, countEacces]
    rcases connectStep_shape u now m env with
      ⟨e, hw, hstep⟩ | ⟨hw, hc, hstep⟩ | ⟨hw, hc, hstep⟩ |
      ⟨hw, hc, hm, hstep⟩ | ⟨hw, hc, hm, hstep⟩ |
      ⟨e, hw, hc, he, hstep⟩ | ⟨e, hw, hc, he1, he2, he3, he4, hstep⟩
    · rw [connectLoop_cons_done hguard hstep]
      simp [countCharged, countEacces]
    · rw [connectLoop_cons_done hguard hstep]
      simp [countCharged_cons, countEacces_cons, countCharged, countEacces,
        EACCES]
    · rw [connectLoop_cons_next hguard hstep]
      have h := ih u tE (if u then env.nextNow else now) m
      have hne : (some ECONNREFUSED : Option Nat) ≠ some EACCES := by decide
      simp only [countCharged_cons, countEacces_cons]
      refine ⟨by simpa using h.1, by simpa [hne] using h.2.1, ?_⟩
      intro hcount
      simp only [if_neg hne, Nat.zero_add] at hcount
      rcases h.2.2 hcount with ⟨hex, tr', htr⟩
      exact ⟨hex, ⟨_ :: tr', by rw [htr]; rfl⟩⟩
    · rw [connectLoop_cons_next hguard hstep]
      have h := ih u tE (if u then env.nextNow else now) (m - 1)
      refine ⟨?_, ?_, ?_⟩
      · have := h.1
        simp [countCharged_cons]
        omega
      · have := h.2.1
        simp [countEacces_cons]
        omega
      · intro hcount
        simp [countEacces_cons] at hcount
        have hc' : countEacces (connectLoop u tE (if u then env.nextNow else now)
            (m - 1) rest).2 = (m - 1).toNat + 1 := by
          have := h.2.1
          omega
        rcases h.2.2 hc' with ⟨hex, tr', htr⟩
        exact ⟨hex, ⟨_ :: tr', by rw [htr]; rfl⟩⟩
    · rw [connectLoop_cons_done hguard hstep]
      refine ⟨by simp [countCharged_cons, countCharged], ?_, ?_⟩
      · simp [countEacces_cons, countEacces]
      · intro _
        exact ⟨rfl, ⟨[], rfl⟩⟩
    · rw [connectLoop_cons_next hguard hstep]
      have h := ih u tE (if u then env.nextNow else now) m
      have hne : (some e : Option Nat) ≠ some EACCES := by
        rcases he with rfl | rfl <;> decide
      simp only [countCharged_cons, countEacces_cons]
      refine ⟨by simpa using h.1, by simpa [hne] using h.2.1, ?_⟩
      · intro hcount
        simp only [if_neg hne, Nat.zero_add] at hcount
        rcases h.2.2 hcount with ⟨hex, tr', htr⟩
        exact ⟨hex, ⟨_ :: tr', by rw [htr]; rfl⟩⟩
    · rw [connectLoop_cons_done hguard hstep]
      have hne : (some e : Option Nat) ≠ some EACCES := by
        simp [he2]
      refine ⟨by simp [countCharged_cons, countCharged], ?_, ?_⟩
      · simp [countEacces_cons, countEacces, hne]
      · intro hcount
        simp [countEacces_cons, countEacces, hne] at hcount


/-- Helper: in every recorded iteration that saw EACCES, the 100 ms
sleep ran exactly when the retry budget was charged. -/
theorem connectLoop_eacces_sleep (envs : List IterEnv) :
    ∀ (u : Bool) (tE now m : Int) (a : IterAct),
    a ∈ (connectLoop u tE now m envs).2 →
    a.connectErrno = some EACCES → a.slept = a.chargedEaccess := by
  induction envs with
  | nil =>
    intro u tE now m a ha
    rw [connectLoop.eq_def] at ha
    split at ha <;> simp at ha
  | cons env rest ih =>
    intro u tE now m a ha herr
    by_cases hguard : u = true ∧ tE - now < 0
    · rw [connectLoop.eq_def, if_pos hguard] at ha
      simp at ha
    rcases connectStep_shape u now m env with
      ⟨e, hw, hstep⟩ | ⟨hw, hc, hstep⟩ | ⟨hw, hc, hstep⟩ |
      ⟨hw, hc, hm, hstep⟩ | ⟨hw, hc, hm, hstep⟩ |
      ⟨e, hw, hc, he, hstep⟩ | ⟨e, hw, hc, he1, he2, he3, he4, hstep⟩
    · rw [connectLoop_cons_done hguard hstep] at ha
      simp at ha
    · rw [connectLoop_cons_done hguard hstep] at ha
      simp at ha
      subst ha
      simp at herr
    · rw [connectLoop_cons_next hguard hstep] at ha
      simp at ha
      rcases ha with rfl | ha
      · simp at herr
        exact absurd herr (by decide)
      · exact ih u tE _ m a ha herr
    · rw [connectLoop_cons_next hguard hstep] at ha
      simp at ha
      rcases ha with rfl | ha
      · rfl
      · exact ih u tE _ (m - 1) a ha herr
    · rw [connectLoop_cons_done hguard hstep] at ha
      simp at ha
      subst ha
      rfl
    · rw [connectLoop_cons_next hguard hstep] at ha
      simp at ha
      rcases ha with rfl | ha
      · rfl
      · exact ih u tE _ m a ha herr
    · rw [connectLoop_cons_done hguard hstep] at ha
      simp at ha
      subst ha
      rfl

/-- Helper: when socket creation succeeds, the loop trace reported by
`Connect` is exactly the trace of the connect loop. -/
theorem Connect_loopTrace (timeout_ms now0 : Int) (env : ConnectEnv)
    (hsock : env.socketResult = none) :
    (Connect timeout_ms now0 env).loopTrace =
      (connectLoop (decide (timeout_ms ≥ 0)) (now0 + timeout_ms) now0 5
        env.iters).2 := by
  unfold Connect
  rw [hsock]
  simp only
  split <;> first
    | rfl
    | (split <;> first
        | rfl
        | (split <;> first
            | rfl
            | (split <;> first | rfl | (split <;> rfl))))

/-- Helper: a fatal connect errno is surfaced as `ErrorStatus(e)`. -/
theorem Connect_result_of_connectFatal (timeout_ms now0 : Int)
    (env : ConnectEnv) (e : Nat) (hsock : env.socketResult = none)
    (hex : (connectLoop (decide (timeout_ms ≥ 0)) (now0 + timeout_ms) now0 5
        env.iters).1 = .connectFatal e) :
    (Connect timeout_ms now0 env).result = .error e := by
  unfold Connect
  rw [hsock]
  simp only
  rw [hex]


/-- C2: across a whole `Connect` call, at most 5 iterations charge the
EACCES retry budget; at most 6 iterations see EACCES at all; every
charged EACCES retry slept 100 ms (sleep iff charged); and a call in
which a 6th EACCES occurred terminated at that very occurrence with
`ErrorStatus(EACCES)`, its final iteration performing no sleep. -/
theorem C2_eacces_retry_budget (timeout_ms now0 : Int) (env : ConnectEnv) :
    countCharged (Connect timeout_ms now0 env).loopTrace ≤ 5 ∧
    countEacces (Connect timeout_ms now0 env).loopTrace ≤ 6 ∧
    (∀ a ∈ (Connect timeout_ms now0 env).loopTrace,
      a.connectErrno = some EACCES → a.slept = a.chargedEaccess) ∧
    (countEacces (Connect timeout_ms now0 env).loopTrace = 6 →
      (Connect timeout_ms now0 env).result = .error EACCES ∧
      ∃ tr', (Connect timeout_ms now0 env).loopTrace =
        tr' ++ [⟨some EACCES, false, false⟩]) := by
  cases hsock : env.socketResult with
  | some e =>
    have hc : Connect timeout_ms now0 env = ⟨.error e, [], []⟩ := by
      unfold Connect
      rw [hsock]
    rw [hc]
    simp [countCharged, countEacces]
  | none =>
    have htr := Connect_loopTrace timeout_ms now0 env hsock
    have hb := connectLoop_eacces_budget env.iters (decide (timeout_ms ≥ 0))
      (now0 + timeout_ms) now0 5
    refine ⟨?_, ?_, ?_, ?_⟩
    · rw [htr]
      simpa using hb.1
    · rw [htr]
      simpa using hb.2.1
    · intro a ha herr
      rw [htr] at ha
      exact connectLoop_eacces_sleep env.iters _ _ _ _ a ha herr
    · intro hcount
      rw [htr] at hcount
      have h6 : countEacces (connectLoop (decide (timeout_ms ≥ 0))
          (now0 + timeout_ms) now0 5 env.iters).2 = (5 : Int).toNat + 1 := by
        simpa using hcount
      rcases hb.2.2 h6 with ⟨hex, tr', htr'⟩
      exact ⟨Connect_result_of_connectFatal timeout_ms now0 env EACCES hsock hex,
        ⟨tr', by rw [htr]; exact htr'⟩⟩

/-- Witness for C2: a call whose six connect attempts all fail with
EACCES ends with `ErrorStatus(EACCES)` on the sixth, which does not
sleep. -/
theorem C2_eacces_retry_budget_witness :
    countEacces (Connect (-1) 0 ⟨none, List.replicate 6 ⟨none, some EACCES, 0⟩,
        ⟨none, none, ⟨0, []⟩⟩⟩).loopTrace = 6 ∧
    (Connect (-1) 0 ⟨none, List.replicate 6 ⟨none, some EACCES, 0⟩,
        ⟨none, none, ⟨0, []⟩⟩⟩).result = .error EACCES ∧
    ∃ tr', (Connect (-1) 0 ⟨none, List.replicate 6 ⟨none, some EACCES, 0⟩,
        ⟨none, none, ⟨0, []⟩⟩⟩).loopTrace =
      tr' ++ [⟨some EACCES, false, false⟩] :=
  ⟨by decide,
    ((C2_eacces_retry_budget (-1) 0
        ⟨none, List.replicate 6 ⟨none, some EACCES, 0⟩,
          ⟨none, none, ⟨0, []⟩⟩⟩).2.2.2 (by decide)).1,
    ((C2_eacces_retry_budget (-1) 0
        ⟨none, List.replicate 6 ⟨none, some EACCES, 0⟩,
          ⟨none, none, ⟨0, []⟩⟩⟩).2.2.2 (by decide)).2⟩


/-- C5: an ECONNREFUSED connect failure always continues the loop into
a fresh endpoint wait after sleeping 100 ms, leaves the EACCES budget
untouched, and never exhausts any retry budget: any number of
consecutive refusals leaves the loop still running. -/
theorem C5_econnrefused_unbounded :
    (∀ (u : Bool) (tE now m : Int) (env : IterEnv) (rest : List IterEnv),
      ¬(u = true ∧ tE - now < 0) →
      env.waitResult = none → env.connectResult = some ECONNREFUSED →
      connectLoop u tE now m (env :: rest) =
        ((connectLoop u tE (if u then env.nextNow else now) m rest).1,
          ⟨some ECONNREFUSED, true, false⟩ ::
            (connectLoop u tE (if u then env.nextNow else now) m rest).2)) ∧
    (∀ (n : Nat) (tE now m nn : Int),
      connectLoop false tE now m
          (List.replicate n ⟨none, some ECONNREFUSED, nn⟩) =
        (.envExhausted,
          List.replicate n ⟨some ECONNREFUSED, true, false⟩)) := by
  constructor
  · intro u tE now m env rest hguard hw hc
    refine connectLoop_cons_next hguard ?_
    rcases env with ⟨wr, cr, nn⟩
    simp only at hw hc
    subst hw
    subst hc
    simp [connectStep]
  · intro n
    induction n with
    | zero =>
      intro tE now m nn
      rw [connectLoop.eq_def]
      simp
    | succ k ih =>
      intro tE now m nn
      rw [List.replicate_succ]
      have hstep : connectStep false now m ⟨none, some ECONNREFUSED, nn⟩ =
          .next now m ⟨some ECONNREFUSED, true, false⟩ := by
        simp [connectStep]
      rw [connectLoop_cons_next (by simp) hstep, ih tE now m nn]
      simp [List.replicate_succ]

/-- Witness for C5: one refused attempt retries with a sleep and the
budget untouched; three consecutive refusals leave the loop running. -/
theorem C5_econnrefused_unbounded_witness :
    (connectLoop false 0 0 5 ([⟨none, some ECONNREFUSED, 1⟩] : List IterEnv) =
      ((connectLoop false 0 (if false then (1 : Int) else 0) 5 []).1,
        ⟨some ECONNREFUSED, true, false⟩ ::
          (connectLoop false 0 (if false then (1 : Int) else 0) 5 []).2)) ∧
    connectLoop false 0 0 5 (List.replicate 3 ⟨none, some ECONNREFUSED, 0⟩) =
      (.envExhausted, List.replicate 3 ⟨some ECONNREFUSED, true, false⟩) :=
  ⟨C5_econnrefused_unbounded.1 false 0 0 5 ⟨none, some ECONNREFUSED, 1⟩ []
      (by decide) rfl rfl,
    C5_econnrefused_unbounded.2 3 0 0 5 0⟩

/-- C6: an ENOENT or ENOTDIR connect failure continues the loop
immediately into a fresh endpoint wait: no sleep is performed and the
EACCES budget is left untouched. -/
theorem C6_enoent_immediate (u : Bool) (tE now m : Int) (env : IterEnv)
    (rest : List IterEnv) (e : Nat)
    (hguard : ¬(u = true ∧ tE - now < 0))
    (hw : env.waitResult = none) (hc : env.connectResult = some e)
    (he : e = ENOENT ∨ e = ENOTDIR) :
    connectLoop u tE now m (env :: rest) =
      ((connectLoop u tE (if u then env.nextNow else now) m rest).1,
        ⟨some e, false, false⟩ ::
          (connectLoop u tE (if u then env.nextNow else now) m rest).2) := by
  refine connectLoop_cons_next hguard ?_
  rcases env with ⟨wr, cr, nn⟩
  simp only at hw hc
  subst hw
  subst hc
  rcases he with rfl | rfl <;>
    simp [connectStep, ENOENT, ENOTDIR, ECONNREFUSED, EACCES]

/-- Witness for C6: a single ENOENT attempt retries with no sleep and
the budget untouched. -/
theorem C6_enoent_immediate_witness :
    connectLoop false 0 0 5 ([⟨none, some ENOENT, 1⟩] : List IterEnv) =
      ((connectLoop false 0 (if false then (1 : Int) else 0) 5 []).1,
        ⟨some ENOENT, false, false⟩ ::
          (connectLoop false 0 (if false then (1 : Int) else 0) 5 []).2) :=
  C6_enoent_immediate false 0 0 5 ⟨none, some ENOENT, 1⟩ [] ENOENT
    (by decide) rfl rfl (Or.inl rfl)


/-- C1 (documents the off-by-one in the source): in a run whose
handshake response carries `ret_code = 0` and an empty descriptor
sequence — a return code equal to the descriptor count — the source's
validation `ref < 0 || static_cast<size_t>(ref) > size()` accepts the
response, and `Connect` goes on to index the descriptor vector out of
bounds instead of rejecting the response with `ErrorStatus(EIO)`. -/
theorem C1_ret_code_eq_count_not_rejected :
    (Connect (-1) 0
        ⟨none, [⟨none, none, 0⟩], ⟨none, none, ⟨0, []⟩⟩⟩).result =
      .oobIndex 0 0 ∧
    (Connect (-1) 0
        ⟨none, [⟨none, none, 0⟩], ⟨none, none, ⟨0, []⟩⟩⟩).result ≠
      .error EIO := by decide

/-- C4 counterexample: a protocol-validation failure (negative return
code) yields exactly the same observable result, `ErrorStatus(EIO)`, as
an OS-level receive failure whose errno is EIO — it is not reported as
a kind distinct from the OS errno domain. -/
theorem C4_not_distinct_counterexample :
    (Connect (-1) 0
        ⟨none, [⟨none, none, 0⟩], ⟨none, none, ⟨-1, []⟩⟩⟩).result =
      .error EIO ∧
    (Connect (-1) 0
        ⟨none, [⟨none, none, 0⟩], ⟨none, some EIO, ⟨0, [7]⟩⟩⟩).result =
      .error EIO ∧
    (Connect (-1) 0
        ⟨none, [⟨none, none, 0⟩], ⟨none, none, ⟨-1, []⟩⟩⟩).result =
      (Connect (-1) 0
        ⟨none, [⟨none, none, 0⟩], ⟨none, some EIO, ⟨0, [7]⟩⟩⟩).result := by
  decide

/-- C4 (amended): a protocol-level validation failure of the handshake
response is reported as `ErrorStatus(EIO)` — a fixed code inside the
same errno domain used for wait, connect, send and receive failures,
not a structurally distinct non-errno kind. -/
theorem C4_protocol_error_is_EIO (timeout_ms now0 : Int) (env : ConnectEnv)
    (hsock : env.socketResult = none)
    (hconn : (connectLoop (decide (timeout_ms ≥ 0)) (now0 + timeout_ms) now0 5
        env.iters).1 = .connected)
    (hsend : env.handshake.sendResult = none)
    (hrecv : env.handshake.recvResult = none)
    (hbad : env.handshake.response.ret_code < 0 ∨
      env.handshake.response.file_descriptors.length <
        env.handshake.response.ret_code.toNat) :
    (Connect timeout_ms now0 env).result = .error EIO := by
  unfold Connect
  rw [hsock]
  simp only
  rw [hconn, hsend, hrecv, if_pos hbad]

/-- Witness for C4's amended statement at a response with return code
`-1`. -/
theorem C4_protocol_error_is_EIO_witness :
    ((⟨none, [⟨none, none, 0⟩], ⟨none, none, ⟨-1, [7]⟩⟩⟩ :
        ConnectEnv).socketResult = none ∧
      (connectLoop (decide ((-1 : Int) ≥ 0)) ((0 : Int) + -1) 0 5
          [⟨none, none, 0⟩]).1 = .connected ∧
      ((-1 : Int) < 0 ∨ ([7] : List Nat).length < (-1 : Int).toNat)) ∧
    (Connect (-1) 0
        ⟨none, [⟨none, none, 0⟩], ⟨none, none, ⟨-1, [7]⟩⟩⟩).result =
      .error EIO :=
  ⟨⟨rfl, by decide, by decide⟩,
    C4_protocol_error_is_EIO (-1) 0
      ⟨none, [⟨none, none, 0⟩], ⟨none, none, ⟨-1, [7]⟩⟩⟩
      rfl (by decide) rfl rfl (by decide)⟩

/-- Helper: exhaustive description of the socket descriptor's lifecycle
events against the result, when socket creation succeeded. -/
theorem Connect_fdEvents_cases (timeout_ms now0 : Int) (env : ConnectEnv)
    (hsock : env.socketResult = none) :
    ((∃ e, (Connect timeout_ms now0 env).result = .error e) ∧
      (Connect timeout_ms now0 env).fdEvents = [.opened, .closed]) ∨
    ((∃ fd, (Connect timeout_ms now0 env).result = .ok fd) ∧
      (Connect timeout_ms now0 env).fdEvents = [.opened, .transferred]) ∨
    ((Connect timeout_ms now0 env).result = .incomplete ∧
      (Connect timeout_ms now0 env).fdEvents = [.opened]) ∨
    ((∃ i n, (Connect timeout_ms now0 env).result = .oobIndex i n) ∧
      (Connect timeout_ms now0 env).fdEvents = [.opened]) := by
  unfold Connect
  rw [hsock]
  simp only
  split
  · exact Or.inl ⟨⟨_, rfl⟩, rfl⟩
  · exact Or.inl ⟨⟨_, rfl⟩, rfl⟩
  · exact Or.inl ⟨⟨_, rfl⟩, rfl⟩
  · exact Or.inr (Or.inr (Or.inl ⟨rfl, rfl⟩))
  · split
    · exact Or.inl ⟨⟨_, rfl⟩, rfl⟩
    · split
      · exact Or.inl ⟨⟨_, rfl⟩, rfl⟩
      · split
        · exact Or.inl ⟨⟨_, rfl⟩, rfl⟩
        · split
          · exact Or.inr (Or.inl ⟨⟨_, rfl⟩, rfl⟩)
          · exact Or.inr (Or.inr (Or.inr ⟨⟨_, _, rfl⟩, rfl⟩))

/-- C8: when socket creation fails, no descriptor exists and none is
closed; otherwise the single descriptor created at call start is closed
exactly once on every error return, and on success it is transferred to
the registry exactly once and never closed — no path leaks it or closes
it twice. -/
theorem C8_socket_fd_lifecycle (timeout_ms now0 : Int) (env : ConnectEnv) :
    (env.socketResult = none →
      ((∃ e, (Connect timeout_ms now0 env).result = .error e) →
        (Connect timeout_ms now0 env).fdEvents = [.opened, .closed]) ∧
      (∀ fd, (Connect timeout_ms now0 env).result = .ok fd →
        (Connect timeout_ms now0 env).fdEvents = [.opened, .transferred])) ∧
    (∀ e, env.socketResult = some e →
      (Connect timeout_ms now0 env).result = .error e ∧
      (Connect timeout_ms now0 env).fdEvents = []) := by
  constructor
  · intro hsock
    rcases Connect_fdEvents_cases timeout_ms now0 env hsock with
      ⟨⟨e, he⟩, hev⟩ | ⟨⟨fd, hfd⟩, hev⟩ | ⟨hinc, hev⟩ | ⟨⟨i, n, hoob⟩, hev⟩
    · refine ⟨fun _ => hev, fun fd h => ?_⟩
      rw [he] at h
      simp at h
    · refine ⟨?_, fun fd' _ => hev⟩
      rintro ⟨e, he⟩
      rw [hfd] at he
      simp at he
    · refine ⟨?_, fun fd h => ?_⟩
      · rintro ⟨e, he⟩
        rw [hinc] at he
        simp at he
      · rw [hinc] at h
        simp at h
    · refine ⟨?_, fun fd h => ?_⟩
      · rintro ⟨e, he⟩
        rw [hoob] at he
        simp at he
      · rw [hoob] at h
        simp at h
  · intro e hsock
    unfold Connect
    rw [hsock]
    exact ⟨rfl, rfl⟩

/-- Witness for C8: a successful run transfers the descriptor, a
receive-failure run closes it, and a failed socket creation records no
descriptor events. -/
theorem C8_socket_fd_lifecycle_witness :
    (Connect (-1) 0
        ⟨none, [⟨none, none, 0⟩], ⟨none, none, ⟨0, [42]⟩⟩⟩).fdEvents =
      [.opened, .transferred] ∧
    (Connect (-1) 0
        ⟨none, [⟨none, none, 0⟩], ⟨none, some EIO, ⟨0, [42]⟩⟩⟩).fdEvents =
      [.opened, .closed] ∧
    (Connect (-1) 0 ⟨some 99, [], ⟨none, none, ⟨0, []⟩⟩⟩).result =
      .error 99 ∧
    (Connect (-1) 0 ⟨some 99, [], ⟨none, none, ⟨0, []⟩⟩⟩).fdEvents = [] :=
  ⟨((C8_socket_fd_lifecycle (-1) 0
        ⟨none, [⟨none, none, 0⟩], ⟨none, none, ⟨0, [42]⟩⟩⟩).1 rfl).2 42
      (by decide),
    ((C8_socket_fd_lifecycle (-1) 0
        ⟨none, [⟨none, none, 0⟩], ⟨none, some EIO, ⟨0, [42]⟩⟩⟩).1 rfl).1
      ⟨ EIO, by decide⟩,
    ((C8_socket_fd_lifecycle (-1) 0
        ⟨some 99, [], ⟨none, none, ⟨0, []⟩⟩⟩).2 99 rfl).1,
    ((C8_socket_fd_lifecycle (-1) 0
        ⟨some 99, [], ⟨none, none, ⟨0, []⟩⟩⟩).2 99 rfl).2⟩

end Uds
